import Mathlib

/-!
Shallow embedding of the booking reconciliation pipeline
(`src/dags/booking_reconciliation_dag.py`).

The pipeline's reconciliation engine is a DuckDB SQL query
(`build_reconciliation_model`) over two staging tables, followed by
aggregation queries (`generate_reconciliation_report`) and data-quality
counts (`data_quality_checks`), with an upstream flattening step for the
raw GA4 events (`extract_ga4_events`).

Modelling conventions:
- SQL `NULL` is `Option.none`; every nullable column is an `Option`.
- Timestamps are rational numbers of seconds (the raw GA4
  `event_timestamp` is an integer number of microseconds, converted by
  the query via `to_timestamp(event_timestamp / 1000000.0)`).
- Dates are integer day indices; `STRPTIME` of a `%Y%m%d` literal is
  abstracted to the identity on day indices, and `CAST(ts AS DATE)`
  truncates seconds to days by flooring.
- Monetary amounts are rationals.
- A `FULL OUTER JOIN` is embedded with relational multiset semantics:
  matching pairs, plus unmatched left rows, plus unmatched right rows.
- SQL three-valued logic appears where it matters: `WHERE` keeps a row
  only when the condition is `some true`, equality on `NULL` never
  matches, `SUM` over no non-null values is `NULL`, and a `CASE` with
  no `ELSE` yields `NULL`.
-/

/-- A row of `staging.ga4_events` (output of `extract_ga4_events`). -/
structure GA4Event where
  event_date : Option ℤ
  event_timestamp : Option ℤ
  event_name : Option String
  user_pseudo_id : Option String
  transaction_id : Option String
  booking_value : Option ℚ
  gclid : Option String
  utm_source : Option String
  utm_campaign : Option String
deriving DecidableEq, Repr

/-- A row of `staging.salesforce_opportunities`
(output of `extract_salesforce_opportunities`). -/
structure SfOpp where
  opportunity_id : Option String
  confirmation_number : Option String
  created_date : Option ℚ
  property_name : Option String
  check_in_date : Option ℚ
  check_out_date : Option ℚ
  nights : Option ℤ
  amount : Option ℚ
  stage_name : Option String
  booking_source : Option String
  gclid_c : Option String
  utm_source_c : Option String
  utm_campaign_c : Option String
deriving DecidableEq, Repr

/-- A row of the `ga4_bookings` CTE of the reconciliation query. -/
structure GaB where
  booking_date : Option ℤ
  booking_timestamp : Option ℚ
  user_pseudo_id : Option String
  transaction_id : Option String
  booking_value : Option ℚ
  gclid : Option String
  utm_source : Option String
  utm_campaign : Option String
  is_test_booking : Bool
deriving DecidableEq, Repr

/-- A row of the `sf_opportunities` CTE of the reconciliation query. -/
structure SfO where
  opportunity_date : Option ℤ
  opportunity_timestamp : Option ℚ
  transaction_id : Option String
  booking_value : Option ℚ
  property_name : Option String
  stage_name : Option String
  booking_source : Option String
  gclid : Option String
  check_in_date : Option ℚ
  nights : Option ℤ
deriving DecidableEq, Repr

/-- The `ga4_bookings` CTE: `WHERE transaction_id IS NOT NULL`, convert
the microsecond epoch to a timestamp, and flag test bookings with
`CASE WHEN user_pseudo_id = 'test_user_internal' THEN true ELSE false END`
(an SQL `NULL` comparison falls through to the `ELSE`). -/
def ga4Bookings (l : List GA4Event) : List GaB :=
  (l.filter fun e => e.transaction_id.isSome).map fun e =>
    { booking_date := e.event_date
      booking_timestamp := e.event_timestamp.map (fun t => (t : ℚ) / 1000000)
      user_pseudo_id := e.user_pseudo_id
      transaction_id := e.transaction_id
      booking_value := e.booking_value
      gclid := e.gclid
      utm_source := e.utm_source
      utm_campaign := e.utm_campaign
      is_test_booking := e.user_pseudo_id = some "test_user_internal" }

/-- SQL three-valued `<>` against a non-null literal: `NULL` operand
gives `NULL`, otherwise the boolean result. -/
def sqlNe (a : Option String) (b : String) : Option Bool :=
  a.map fun x => decide (x ≠ b)

/-- `WHERE stage_name != 'Cancelled'`: a row is kept only when the
three-valued condition evaluates to true (so a `NULL` stage is dropped). -/
def stageKeep (s : SfOpp) : Bool :=
  sqlNe s.stage_name "Cancelled" = some true

/-- The `sf_opportunities` CTE: status filter plus column renaming;
`CAST(created_date AS DATE)` floors seconds to a day index.  Note that
`confirmation_number` is *not* filtered for `NULL` here. -/
def sfOpportunities (l : List SfOpp) : List SfO :=
  (l.filter stageKeep).map fun s =>
    { opportunity_date := s.created_date.map fun t => ⌊t / 86400⌋
      opportunity_timestamp := s.created_date
      transaction_id := s.confirmation_number
      booking_value := s.amount
      property_name := s.property_name
      stage_name := s.stage_name
      booking_source := s.booking_source
      gclid := s.gclid_c
      check_in_date := s.check_in_date
      nights := s.nights }

/-- SQL equality used in the join condition
`ON g.transaction_id = s.transaction_id`: true only when both operands
are non-null and equal (a `NULL` key never matches anything). -/
def keyEq (a b : Option String) : Bool :=
  match a, b with
  | some x, some y => x = y
  | _, _ => false

/-- `FULL OUTER JOIN` with relational multiset semantics: every matching
(left, right) pair, then every left row with no match padded with `NULL`s,
then every right row with no match padded with `NULL`s. -/
def fullOuterJoin (l : List GaB) (r : List SfO) :
    List (Option GaB × Option SfO) :=
  (l.flatMap fun g =>
    (r.filter fun s => keyEq g.transaction_id s.transaction_id).map
      fun s => (some g, some s))
  ++ ((l.filter fun g =>
        ¬ r.any fun s => keyEq g.transaction_id s.transaction_id).map
      fun g => (some g, none))
  ++ ((r.filter fun s =>
        ¬ l.any fun g => keyEq g.transaction_id s.transaction_id).map
      fun s => (none, some s))

/-- Match status values produced by the reconciliation query. -/
inductive MatchStatus where
  | matched
  | ga4_only
  | sf_only
deriving DecidableEq, Repr

/-- GCLID attribution status values produced by the reconciliation query. -/
inductive GclidStatus where
  | gclid_matched
  | gclid_in_ga4_only
  | gclid_in_sf_only
  | gclid_mismatch
  | no_gclid
deriving DecidableEq, Repr

/-- The match-status `CASE` expression.  It has no `ELSE`, so when both
keys are `NULL` (a right-side row with a `NULL` confirmation number) the
result is SQL `NULL`. -/
def matchStatusOf (gt st : Option String) : Option MatchStatus :=
  if gt.isSome ∧ st.isSome then some .matched
  else if gt.isSome ∧ st = none then some .ga4_only
  else if gt = none ∧ st.isSome then some .sf_only
  else none

/-- The GCLID-status `CASE` expression, clause by clause in source order;
the `ELSE` branch yields `no_gclid`. -/
def gclidStatusOf (gg sg : Option String) : GclidStatus :=
  if gg.isSome ∧ sg.isSome ∧ gg = sg then .gclid_matched
  else if gg.isSome ∧ sg = none then .gclid_in_ga4_only
  else if gg = none ∧ sg.isSome then .gclid_in_sf_only
  else if gg.isSome ∧ sg.isSome ∧ gg ≠ sg then .gclid_mismatch
  else .no_gclid

/-- `DATEDIFF('minute', a, b)`: the number of minute boundaries between
the two timestamps, i.e. the difference of their floored minute indices. -/
def dateDiffMinute (a b : ℚ) : ℤ :=
  ⌊b / 60⌋ - ⌊a / 60⌋

/-- The timing `CASE` expression: defined only when both timestamps are
non-null, `NULL` otherwise (no `ELSE` branch). -/
def timeDiffOf (gt st : Option ℚ) : Option ℤ :=
  match gt, st with
  | some a, some b => some (dateDiffMinute a b)
  | _, _ => none

/-- One row of `reporting.booking_reconciliation`. -/
structure ReconRow where
  date : Option ℤ
  transaction_id : Option String
  match_status : Option MatchStatus
  ga4_booking_value : Option ℚ
  ga4_gclid : Option String
  ga4_utm_source : Option String
  is_test_booking : Option Bool
  sf_booking_value : Option ℚ
  property_name : Option String
  stage_name : Option String
  booking_source : Option String
  sf_gclid : Option String
  check_in_date : Option ℚ
  nights : Option ℤ
  gclid_status : GclidStatus
  time_diff_minutes : Option ℤ
deriving DecidableEq, Repr

/-- The `SELECT` list of the reconciliation query applied to one joined
pair; a column of an absent side is SQL `NULL`. -/
def reconRow (g : Option GaB) (s : Option SfO) : ReconRow :=
  { date := (g.bind (·.booking_date)).or (s.bind (·.opportunity_date))
    transaction_id := (g.bind (·.transaction_id)).or (s.bind (·.transaction_id))
    match_status := matchStatusOf (g.bind (·.transaction_id)) (s.bind (·.transaction_id))
    ga4_booking_value := g.bind (·.booking_value)
    ga4_gclid := g.bind (·.gclid)
    ga4_utm_source := g.bind (·.utm_source)
    is_test_booking := g.map (·.is_test_booking)
    sf_booking_value := s.bind (·.booking_value)
    property_name := s.bind (·.property_name)
    stage_name := s.bind (·.stage_name)
    booking_source := s.bind (·.booking_source)
    sf_gclid := s.bind (·.gclid)
    check_in_date := s.bind (·.check_in_date)
    nights := s.bind (·.nights)
    gclid_status := gclidStatusOf (g.bind (·.gclid)) (s.bind (·.gclid))
    time_diff_minutes :=
      timeDiffOf (g.bind (·.booking_timestamp)) (s.bind (·.opportunity_timestamp)) }

/-- The reconciliation engine over already-normalized (CTE-level) inputs. -/
def reconcile (l : List GaB) (r : List SfO) : List ReconRow :=
  (fullOuterJoin l r).map fun p => reconRow p.1 p.2

/-- `build_reconciliation_model`: the full query from the staging tables
to `reporting.booking_reconciliation`. -/
def reconciliation (l : List GA4Event) (r : List SfOpp) : List ReconRow :=
  reconcile (ga4Bookings l) (sfOpportunities r)

/-- `data_quality_checks`, check 1 (GA4 side):
`COUNT(*) ... WHERE transaction_id IS NULL`. -/
def ga4NullCount (l : List GA4Event) : ℕ :=
  l.countP fun e => e.transaction_id = none

/-- `data_quality_checks`, check 1 (Salesforce side):
`COUNT(*) ... WHERE confirmation_number IS NULL`. -/
def sfNullCount (l : List SfOpp) : ℕ :=
  l.countP fun s => s.confirmation_number = none

/-- SQL aggregate `SUM`: `NULL` operands are skipped, and the result is
`NULL` exactly when there is no non-null operand at all. -/
def sqlSum (l : List (Option ℚ)) : Option ℚ :=
  l.foldl
    (fun acc x =>
      match acc, x with
      | none, v => v
      | some a, none => some a
      | some a, some b => some (a + b))
    none

/-- `ROUND(x, 2)` on DuckDB numerics: round half away from zero at two
decimal places. -/
def sqlRound2 (q : ℚ) : ℚ :=
  (if 0 ≤ q then (⌊q * 100 + 1 / 2⌋ : ℤ) else -⌊-q * 100 + 1 / 2⌋) / 100

/-- Output of the revenue reconciliation query. -/
structure RevenueSummary where
  total_ga4_revenue : Option ℚ
  total_sf_revenue : Option ℚ
  revenue_difference : Option ℚ
  diff_percentage : Option ℚ
deriving DecidableEq, Repr

/-- The revenue reconciliation query of `generate_reconciliation_report`:
sums of the two booking values over `match_status = 'matched'` rows, their
difference, and the rounded percentage of the GA4 total.  `none` stands
for the non-numeric outcomes: the SQL `NULL` that `SUM` yields over no
matched rows (and that then propagates through the arithmetic), and the
non-finite IEEE sentinel that dividing by a zero GA4 total produces —
either way an explicitly undefined value, never a raised error. -/
def mkRevenueSummary (a b : Option ℚ) : RevenueSummary :=
  { total_ga4_revenue := a
    total_sf_revenue := b
    revenue_difference :=
      match a, b with
      | some x, some y => some (x - y)
      | _, _ => none
    diff_percentage :=
      match a, b with
      | some x, some y =>
          if x = 0 then none else some (sqlRound2 ((x - y) / x * 100))
      | _, _ => none }

/-- The revenue reconciliation query applied to the reconciliation table:
`WHERE match_status = 'matched'`, then the four `SELECT` expressions. -/
def revenueSummary (rows : List ReconRow) : RevenueSummary :=
  mkRevenueSummary
    (sqlSum ((rows.filter fun r => r.match_status = some .matched).map
      (·.ga4_booking_value)))
    (sqlSum ((rows.filter fun r => r.match_status = some .matched).map
      (·.sf_booking_value)))

/-- `ORDER BY date DESC` ordering on nullable dates: larger day indices
first, `NULL`s last (DuckDB's default null ordering). -/
def dateDescLE : Option ℤ → Option ℤ → Prop
  | _, none => True
  | none, some _ => False
  | some x, some y => y ≤ x

instance : DecidableRel dateDescLE := fun a b => by
  cases a <;> cases b <;> simp [dateDescLE] <;> infer_instance

instance : IsTotal (Option ℤ) dateDescLE where
  total a b := by
    rcases a with _ | x <;> rcases b with _ | y
    · exact Or.inl trivial
    · exact Or.inr trivial
    · exact Or.inl trivial
    · exact le_total y x

instance : IsTrans (Option ℤ) dateDescLE where
  trans a b c hab hbc := by
    rcases a with _ | x <;> rcases b with _ | y <;> rcases c with _ | z <;>
      first
        | exact trivial
        | exact False.elim hbc
        | exact False.elim hab
        | exact le_trans hbc hab

instance : IsRefl (Option ℤ) dateDescLE :=
  ⟨by intro a; cases a <;> simp [dateDescLE]⟩

/-- One row of the daily-trend query output. -/
structure TrendEntry where
  date : Option ℤ
  total_bookings : ℕ
  matched : ℕ
  match_rate_pct : ℚ
deriving DecidableEq, Repr

/-- The daily-trend group for one date value: `COUNT(*)`,
`SUM(CASE WHEN match_status = 'matched' THEN 1 ELSE 0 END)`, and the
rounded match-rate percentage. -/
def trendEntry (rows : List ReconRow) (d : Option ℤ) : TrendEntry :=
  let tot := rows.countP fun r => r.date = d
  let mat := rows.countP fun r => r.date = d ∧ r.match_status = some .matched
  { date := d
    total_bookings := tot
    matched := mat
    match_rate_pct := sqlRound2 ((mat : ℚ) * 100 / tot) }

/-- The daily-trend query of `generate_reconciliation_report`:
`GROUP BY date` (SQL grouping puts all `NULL` dates in one group),
`ORDER BY date DESC`, `LIMIT 10`. -/
def dailyTrend (rows : List ReconRow) : List TrendEntry :=
  ((((rows.map (·.date)).dedup).insertionSort dateDescLE).take 10).map
    (trendEntry rows)

/-!  The GA4 extraction stage (`extract_ga4_events`). -/

/-- One typed value inside a raw GA4 `event_params` entry: the flattening
loop recognizes a `string_value` or a `double_value` and silently skips
any other encoding. -/
inductive ParamValue where
  | strVal (s : String)
  | dblVal (q : ℚ)
  | otherVal
deriving DecidableEq, Repr

/-- One raw GA4 event parameter: a key with a typed value. -/
structure Param where
  key : String
  value : ParamValue
deriving DecidableEq, Repr

/-- A raw GA4 event before flattening. -/
structure RawGa4Event where
  event_date : Option ℤ
  event_timestamp : Option ℤ
  event_name : Option String
  user_pseudo_id : Option String
  event_params : List Param
deriving DecidableEq, Repr

/-- Lookup in the `params_dict` built by the flattening loop: the last
parameter with the given key whose value is a recognized encoding wins
(later dict assignments overwrite earlier ones); a parameter with an
unrecognized encoding leaves the dict untouched. -/
def paramsDictGet (ps : List Param) (k : String) : Option ParamValue :=
  ps.foldl
    (fun acc p =>
      if p.key = k then
        match p.value with
        | .strVal s => some (.strVal s)
        | .dblVal q => some (.dblVal q)
        | .otherVal => acc
      else acc)
    none

/-- View a recovered parameter value as a string column. -/
def pvString : Option ParamValue → Option String
  | some (.strVal s) => some s
  | _ => none

/-- View a recovered parameter value as a numeric column. -/
def pvNumber : Option ParamValue → Option ℚ
  | some (.dblVal q) => some q
  | _ => none

/-- Flatten one raw GA4 event into a `staging.ga4_events` row, exactly as
the loop body of `extract_ga4_events` does via `params_dict.get`. -/
def flattenGa4Event (e : RawGa4Event) : GA4Event :=
  { event_date := e.event_date
    event_timestamp := e.event_timestamp
    event_name := e.event_name
    user_pseudo_id := e.user_pseudo_id
    transaction_id := pvString (paramsDictGet e.event_params "transaction_id")
    booking_value := pvNumber (paramsDictGet e.event_params "value")
    gclid := pvString (paramsDictGet e.event_params "gclid")
    utm_source := pvString (paramsDictGet e.event_params "utm_source")
    utm_campaign := pvString (paramsDictGet e.event_params "utm_campaign") }

/-- The whole flattening pass: one output row per input event,
unconditionally. -/
def flattenGa4Events (l : List RawGa4Event) : List GA4Event :=
  l.map flattenGa4Event

/-!  Concrete sample records used to evaluate the pipeline. -/

/-- A GA4 staging row with key `A`, timestamp 59 s, value 100, GCLID `g1`. -/
def gaRecA : GA4Event :=
  ⟨some 10, some 59000000, some "purchase", some "u1", some "A", some 100,
    some "g1", none, none⟩

/-- A GA4 staging row with key `A` but a null `event_date` (and no
timestamp). -/
def gaRecNoDate : GA4Event :=
  ⟨none, none, some "purchase", some "u1", some "A", some 100,
    some "g1", none, none⟩

/-- A GA4 staging row with key `A` and no timestamp or numeric fields
that require evaluation. -/
def gaRecPlain : GA4Event :=
  ⟨some 10, none, some "purchase", some "u1", some "A", some 100,
    some "g1", none, none⟩

/-- A Salesforce staging row with key `A` and no timestamp. -/
def sfRecPlain : SfOpp :=
  ⟨some "o1", some "A", none, some "Grand Plaza Hotel NYC", none, none,
    some 2, some 100, some "Booked", some "phone", some "g1", none, none⟩

/-- The `ga4_bookings` CTE row produced from `gaRecPlain`. -/
def gabPlain : GaB :=
  ⟨some 10, none, some "u1", some "A", some 100, some "g1", none, none,
    false⟩

/-- The `sf_opportunities` CTE row produced from `sfRecPlain`. -/
def sfoPlain : SfO :=
  ⟨none, none, some "A", some 100, some "Grand Plaza Hotel NYC",
    some "Booked", some "phone", some "g1", none, some 2⟩

/-- A GA4 staging row with a null `transaction_id`. -/
def gaRecNullKey : GA4Event :=
  ⟨some 10, some 59000000, some "purchase", some "u2", none, some 250,
    none, none, none⟩

/-- A Salesforce staging row with key `A`, created at 61 s, amount 100,
GCLID `g1`. -/
def sfRecA : SfOpp :=
  ⟨some "o1", some "A", some 61, some "Grand Plaza Hotel NYC", none, none,
    some 2, some 100, some "Booked", some "phone", some "g1", none, none⟩

/-- A second Salesforce staging row with the same key `A` (a duplicate). -/
def sfRecADup : SfOpp :=
  ⟨some "o2", some "A", some 120, none, none, none, none, some 200,
    some "Confirmed", none, some "g2", none, none⟩

/-- A Salesforce staging row with a null `confirmation_number`. -/
def sfRecNullKey : SfOpp :=
  ⟨some "o3", none, some 61, none, none, none, none, some 500,
    some "Confirmed", some "phone", none, none, none⟩

/-- A Salesforce staging row with key `A` created on day 20
(`1728000 = 20 * 86400` seconds). -/
def sfRecDay20 : SfOpp :=
  ⟨some "o4", some "A", some 1728000, none, none, none, none, some 300,
    some "Booked", some "direct", none, none, none⟩

/-- The `sf_opportunities` CTE row produced from `sfRecDay20`. -/
def sfoDay20 : SfO :=
  ⟨some 20, some 1728000, some "A", some 300, none, some "Booked",
    some "direct", none, none, none⟩

/-- A Salesforce staging row with a null `stage_name`. -/
def sfRecNullStage : SfOpp :=
  ⟨some "o5", some "A", some 61, none, none, none, none, some 100,
    none, some "phone", none, none, none⟩

/-- GA4 staging rows whose matched booking values sum to 1000. -/
def gaRevSample : List GA4Event :=
  [⟨some 10, none, none, some "u1", some "A", some 600, none, none, none⟩,
   ⟨some 11, none, none, some "u2", some "B", some 400, none, none, none⟩]

/-- Salesforce staging rows whose matched amounts sum to 900. -/
def sfRevSample : List SfOpp :=
  [⟨some "o1", some "A", none, none, none, none, none, some 550,
      some "Booked", none, none, none, none⟩,
   ⟨some "o2", some "B", none, none, none, none, none, some 350,
      some "Confirmed", none, none, none, none⟩]

/-- A GA4 staging row with key `Z` and a zero booking value. -/
def gaRecZero : GA4Event :=
  ⟨some 10, none, none, some "u1", some "Z", some 0, none, none, none⟩

/-- A Salesforce staging row with key `Z` and amount 5. -/
def sfRecZero : SfOpp :=
  ⟨some "o9", some "Z", none, none, none, none, none, some 5,
    some "Booked", none, none, none, none⟩

/-- A raw GA4 event whose `transaction_id` parameter carries an
unrecognized value encoding. -/
def rawEvtBadParam : RawGa4Event :=
  ⟨some 10, some 59000000, some "purchase", some "u1",
    [⟨"transaction_id", .otherVal⟩]⟩

/-- A raw GA4 event identical to `rawEvtBadParam` but with no parameters
at all. -/
def rawEvtNoParams : RawGa4Event :=
  ⟨some 10, some 59000000, some "purchase", some "u1", []⟩

/-- A CTE-level GA4 booking used for pointwise classifier checks. -/
def gabSample : GaB :=
  ⟨some 10, some (59 : ℚ), some "u1", some "A", some 100, some "g1",
    none, none, false⟩

/-- A CTE-level Salesforce opportunity: exactly the `sf_opportunities`
CTE row produced from `sfRecA`. -/
def sfoSample : SfO :=
  ⟨some 0, some (61 : ℚ), some "A", some 100, some "Grand Plaza Hotel NYC",
    some "Booked", some "phone", some "g1", none, some 2⟩

/-- CTE-level GA4 bookings with day-index dates `0 .. 11`, used to
exercise the daily-trend cap. -/
def gabDay (i : ℤ) : GaB :=
  ⟨some i, none, some "u1", some "K", some 100, none, none, none, false⟩

/-- Twelve reconciled rows with twelve distinct dates. -/
def trendRows12 : List ReconRow :=
  (List.range 12).map fun i => reconRow (some (gabDay i)) none

/-- How many GA4-side join-input records carry the key `k`. -/
def gaKeyCount (l : List GaB) (k : String) : ℕ :=
  l.countP fun g => g.transaction_id = some k

/-- How many Salesforce-side join-input records carry the key `k`. -/
def sfKeyCount (r : List SfO) (k : String) : ℕ :=
  r.countP fun s => s.transaction_id = some k

/-- How many reconciliation rows carry the key `k`. -/
def keyRowCount (rows : List ReconRow) (k : String) : ℕ :=
  rows.countP fun row => row.transaction_id = some k

/-- How many reconciliation rows carry the match status `m`. -/
def statusCount (rows : List ReconRow) (m : MatchStatus) : ℕ :=
  rows.countP fun row => row.match_status = some m

/-!  Theorems. -/

lemma gclidStatusOf_spec (gg sg : Option String) :
    (gclidStatusOf gg sg = .gclid_matched ↔ ∃ t, gg = some t ∧ sg = some t) ∧
    (gclidStatusOf gg sg = .gclid_mismatch ↔
      ∃ a b, gg = some a ∧ sg = some b ∧ a ≠ b) ∧
    (gclidStatusOf gg sg = .no_gclid ↔ gg = none ∧ sg = none) := by
  rcases gg with _ | a <;> rcases sg with _ | b
  · simp [gclidStatusOf]
  · simp [gclidStatusOf]
  · simp [gclidStatusOf]
  · by_cases h : a = b
    · simp [gclidStatusOf, h]
    · simp [gclidStatusOf, h]
      exact fun hba => h hba.symm

/-- C9: the Salesforce status filter `WHERE stage_name != 'Cancelled'`
admits a record exactly when its status is present (non-null) and differs
from `'Cancelled'`; in particular null-status records never reach the
matching input. -/
theorem status_filter_excludes_null_status :
    (∀ s : SfOpp, stageKeep s = true ↔
      ∃ st, s.stage_name = some st ∧ st ≠ "Cancelled") ∧
    (∀ l : List SfOpp,
      sfOpportunities l =
        sfOpportunities (l.filter fun s => s.stage_name.isSome)) := by
  constructor
  · intro s
    cases h : s.stage_name <;> simp [stageKeep, sqlNe, h]
  · intro l
    unfold sfOpportunities
    rw [List.filter_filter]
    congr 1
    apply List.filter_congr
    intro s _
    cases h : s.stage_name <;> simp [stageKeep, sqlNe, h]

/-- Witness for C9 at concrete records: a `'Booked'` record is admitted. -/
theorem status_filter_excludes_null_status_witness :
    stageKeep sfRecA = true ∧
    sfOpportunities [sfRecNullStage] =
      sfOpportunities ([sfRecNullStage].filter fun s => s.stage_name.isSome) :=
  ⟨(status_filter_excludes_null_status.1 sfRecA).mpr ⟨"Booked", rfl, by decide⟩,
   status_filter_excludes_null_status.2 [sfRecNullStage]⟩

/-- C3: every reconciliation row is the image of a joined pair, and on any
such row the GCLID status is `gclid_matched` exactly when both sides carry
a (non-null) token and the tokens are equal, `gclid_mismatch` exactly when
both carry tokens that differ, and `no_gclid` exactly when neither side
has a token. -/
theorem attribution_status_classification :
    (∀ (l : List GA4Event) (r : List SfOpp) (row : ReconRow),
      row ∈ reconciliation l r → ∃ g s, row = reconRow g s) ∧
    (∀ (g : Option GaB) (s : Option SfO),
      ((reconRow g s).gclid_status = .gclid_matched ↔
        ∃ t, (reconRow g s).ga4_gclid = some t ∧
          (reconRow g s).sf_gclid = some t) ∧
      ((reconRow g s).gclid_status = .gclid_mismatch ↔
        ∃ a b, (reconRow g s).ga4_gclid = some a ∧
          (reconRow g s).sf_gclid = some b ∧ a ≠ b) ∧
      ((reconRow g s).gclid_status = .no_gclid ↔
        (reconRow g s).ga4_gclid = none ∧ (reconRow g s).sf_gclid = none)) := by
  constructor
  · intro l r row hrow
    unfold reconciliation reconcile at hrow
    rcases List.mem_map.mp hrow with ⟨p, _, rfl⟩
    exact ⟨p.1, p.2, rfl⟩
  · intro g s
    exact gclidStatusOf_spec (g.bind (·.gclid)) (s.bind (·.gclid))

/-- Witness for C3 at a concrete matched pair with equal tokens. -/
theorem attribution_status_classification_witness :
    (∃ g s, reconRow (some gabPlain) (some sfoPlain) = reconRow g s) ∧
    (∃ t, (reconRow (some gabPlain) (some sfoPlain)).ga4_gclid = some t ∧
      (reconRow (some gabPlain) (some sfoPlain)).sf_gclid = some t) :=
  ⟨attribution_status_classification.1 [gaRecPlain] [sfRecPlain] _ (by decide),
   (attribution_status_classification.2 (some gabPlain) (some sfoPlain)).1.mp
     (by decide)⟩

/-- C5 counterexample: with a left timestamp of 59 s and a right timestamp
of 61 s — two seconds apart but across a minute boundary — the code emits
`time_diff_minutes = 1`, while the signed number of minutes of the
difference of the two timestamps is 0. -/
theorem time_skew_counterexample :
    (reconciliation [gaRecA] [sfRecA]).map (·.time_diff_minutes) = [some 1] ∧
    (⌊(((61 : ℚ) - 59) / 60)⌋ : ℤ) = 0 ∧ (1 : ℤ) ≠ 0 := by
  have hga : ga4Bookings [gaRecA] = [gabSample] := by
    simp [ga4Bookings, gaRecA, gabSample]
    norm_num
  have hsf : sfOpportunities [sfRecA] = [sfoSample] := by
    simp [sfOpportunities, sfRecA, sfoSample, stageKeep, sqlNe]
    norm_num
  have h61 : (⌊(61 : ℚ) / 60⌋ : ℤ) = 1 := by norm_num
  have h59 : (⌊(59 : ℚ) / 60⌋ : ℤ) = 0 := by norm_num
  refine ⟨?_, by norm_num, by decide⟩
  unfold reconciliation
  rw [hga, hsf]
  simp [reconcile, fullOuterJoin, reconRow, keyEq, timeDiffOf, dateDiffMinute,
    gabSample, sfoSample, h61, h59]

/-- C5 amended: `time_diff_minutes` is present exactly when both sides
are present with non-null timestamps, and then equals the number of
minute boundaries between them — the right timestamp's floored minute
index minus the left's (possibly negative) — not the truncated minute
count of the timestamp difference. -/
theorem time_skew_minute_boundaries :
    ∀ (g : Option GaB) (s : Option SfO),
      (((reconRow g s).time_diff_minutes).isSome ↔
        (g.bind (·.booking_timestamp)).isSome ∧
          (s.bind (·.opportunity_timestamp)).isSome) ∧
      (∀ a b, g.bind (·.booking_timestamp) = some a →
        s.bind (·.opportunity_timestamp) = some b →
        (reconRow g s).time_diff_minutes = some (⌊b / 60⌋ - ⌊a / 60⌋)) := by
  intro g s
  constructor
  · cases hg : g.bind (·.booking_timestamp) <;>
      cases hs : s.bind (·.opportunity_timestamp) <;>
        simp [reconRow, timeDiffOf, hg, hs]
  · intro a b ha hb
    simp [reconRow, timeDiffOf, dateDiffMinute, ha, hb]

/-- Witness for C5's amended theorem at the concrete 59 s / 61 s pair. -/
theorem time_skew_minute_boundaries_witness :
    (reconRow (some gabSample) (some sfoSample)).time_diff_minutes =
      some (⌊(61 : ℚ) / 60⌋ - ⌊(59 : ℚ) / 60⌋) :=
  (time_skew_minute_boundaries (some gabSample) (some sfoSample)).2 59 61
    (by decide) (by decide)

/-- C10 counterexample: a MATCHED row (both sides present) whose left
record has a null `event_date` takes its output date from the right
side's `opportunity_date` — so the right side's date is not used only
when the left side is absent. -/
theorem matched_date_from_right_counterexample :
    (reconciliation [gaRecNoDate] [sfRecDay20]).map
        (fun r => (r.match_status, r.date)) = [(some .matched, some 20)] ∧
    (ga4Bookings [gaRecNoDate]).map (·.booking_date) = [none] := by
  have hsf : sfOpportunities [sfRecDay20] = [sfoDay20] := by
    simp [sfOpportunities, sfRecDay20, sfoDay20, stageKeep, sqlNe]
    norm_num
  refine ⟨?_, by decide⟩
  unfold reconciliation
  rw [hsf]
  decide

/-- C10 amended: the output date is `COALESCE` over the two date columns,
not over side presence: a row with a left side whose date is non-null uses
that date; when the left side is absent, or present with a null date, the
right side's date is used. -/
theorem date_coalesce_rule :
    (∀ (g : GaB) (s : Option SfO) (d : ℤ), g.booking_date = some d →
      (reconRow (some g) s).date = some d) ∧
    (∀ (g : GaB) (s : Option SfO), g.booking_date = none →
      (reconRow (some g) s).date = s.bind (·.opportunity_date)) ∧
    (∀ s : SfO, (reconRow none (some s)).date = s.opportunity_date) := by
  refine ⟨?_, ?_, ?_⟩
  · intro g s d h; simp [reconRow, h]
  · intro g s h; simp [reconRow, h]
  · intro s; simp [reconRow]

/-- Witness for C10's amended theorem at concrete pairs. -/
theorem date_coalesce_rule_witness :
    (reconRow (some gabSample) (some sfoSample)).date = some 10 ∧
    (reconRow (some ⟨none, none, none, some "A", none, none, none, none,
      false⟩) (some sfoSample)).date = (some sfoSample).bind (·.opportunity_date) ∧
    (reconRow none (some sfoSample)).date = sfoSample.opportunity_date :=
  ⟨date_coalesce_rule.1 gabSample (some sfoSample) 10 rfl,
   date_coalesce_rule.2.1 _ (some sfoSample) rfl,
   date_coalesce_rule.2.2 sfoSample⟩

/-- C2 counterexample: a CRM record with a null business key is not
dropped before matching — it flows through the status filter and the
full outer join and emits an output row (with a null match status). -/
theorem null_key_crm_row_survives :
    (reconciliation [] [sfRecNullKey]).map
      (fun r => (r.match_status, r.sf_booking_value)) = [(none, some 500)] := by
  decide

/-- C2 amended: analytics-side records with a null business key are
dropped before matching and counted by the data-quality check; CRM-side
records with a null key are only counted — the reconciliation query never
filters them out. -/
theorem null_key_handling :
    (∀ (l : List GA4Event) (r : List SfOpp) (e : GA4Event),
      e.transaction_id = none → reconciliation (e :: l) r = reconciliation l r) ∧
    (∀ (l : List GA4Event) (e : GA4Event), e.transaction_id = none →
      ga4NullCount (e :: l) = ga4NullCount l + 1) ∧
    (∀ (r : List SfOpp) (s : SfOpp), s.confirmation_number = none →
      sfNullCount (s :: r) = sfNullCount r + 1) := by
  refine ⟨?_, ?_, ?_⟩
  · intro l r e he
    unfold reconciliation
    congr 1
    unfold ga4Bookings
    rw [List.filter_cons]
    simp [he]
  · intro l e he; simp [ga4NullCount, List.countP_cons, he]
  · intro r s hs; simp [sfNullCount, List.countP_cons, hs]

/-- Witness for C2's amended theorem at concrete records. -/
theorem null_key_handling_witness :
    reconciliation (gaRecNullKey :: []) [] = reconciliation [] [] ∧
    ga4NullCount [gaRecNullKey] = ga4NullCount [] + 1 ∧
    sfNullCount [sfRecNullKey] = sfNullCount [] + 1 :=
  ⟨null_key_handling.1 [] [] gaRecNullKey rfl,
   null_key_handling.2.1 [] gaRecNullKey rfl,
   null_key_handling.2.2 [] sfRecNullKey rfl⟩

/-- C7 counterexample: normalization of a record whose attribute encoding
cannot be parsed does not fail and does not identify the record — its
flattened output is identical to that of a record with no attributes at
all, and the batch emits one row for it like any other record. -/
theorem malformed_param_not_flagged :
    flattenGa4Event rawEvtBadParam = flattenGa4Event rawEvtNoParams ∧
    flattenGa4Events [rawEvtBadParam] =
      [⟨some 10, some 59000000, some "purchase", some "u1", none, none,
        none, none, none⟩] := by
  exact ⟨rfl, rfl⟩

/-- C7 amended: an attribute whose value encoding is not recognized
(neither a string nor a double) is silently skipped — the flattened
record keeps a null for that attribute, every raw event still yields
exactly one flattened row, and no error condition or strict mode exists. -/
theorem malformed_param_skipped :
    (∀ l : List RawGa4Event, (flattenGa4Events l).length = l.length) ∧
    (∀ (k k2 : String) (ps : List Param),
      paramsDictGet (⟨k, .otherVal⟩ :: ps) k2 = paramsDictGet ps k2) := by
  refine ⟨?_, ?_⟩
  · intro l; simp [flattenGa4Events]
  · intro k k2 ps
    by_cases h : k = k2 <;> simp [paramsDictGet, h]

lemma mkRevenueSummary_zero_total (b : Option ℚ) :
    (mkRevenueSummary (some 0) b).diff_percentage = none := by
  cases b <;> simp [mkRevenueSummary]

/-- C4: the revenue reconciliation depends only on MATCHED rows (a
non-matched row changes nothing), yields the explicit undefined value on
the empty matched set and on a zero left total instead of raising, and on
matched sums 1000 vs 900 reports difference 100 and percentage 10.00. -/
theorem revenue_reconciliation_spec :
    (∀ (rows : List ReconRow) (r : ReconRow), r.match_status ≠ some .matched →
      revenueSummary (r :: rows) = revenueSummary rows) ∧
    (∀ rows : List ReconRow,
      (rows.countP fun r => r.match_status = some .matched) = 0 →
      revenueSummary rows = ⟨none, none, none, none⟩) ∧
    (∀ rows : List ReconRow, (revenueSummary rows).total_ga4_revenue = some 0 →
      (revenueSummary rows).diff_percentage = none) ∧
    revenueSummary (reconciliation gaRevSample sfRevSample) =
      ⟨some 1000, some 900, some 100, some 10⟩ := by
  refine ⟨?_, ?_, ?_, ?_⟩
  · intro rows r h
    simp [revenueSummary, List.filter_cons, h]
  · intro rows h
    have h2 : rows.filter (fun r => r.match_status = some .matched) = [] :=
      List.filter_eq_nil_iff.mpr fun a ha hp => by
        have := List.countP_eq_zero.mp h a ha
        simp_all
    simp [revenueSummary, h2, sqlSum, mkRevenueSummary]
  · intro rows h
    have hA : sqlSum ((rows.filter fun r =>
        r.match_status = some MatchStatus.matched).map
          (·.ga4_booking_value)) = some 0 := h
    unfold revenueSummary
    rw [hA]
    exact mkRevenueSummary_zero_total _
  · have hrec : reconciliation gaRevSample sfRevSample =
        [reconRow (some ⟨some 10, none, some "u1", some "A", some 600, none,
            none, none, false⟩)
          (some ⟨none, none, some "A", some 550, none, some "Booked", none,
            none, none, none⟩),
         reconRow (some ⟨some 11, none, some "u2", some "B", some 400, none,
            none, none, false⟩)
          (some ⟨none, none, some "B", some 350, none, some "Confirmed", none,
            none, none, none⟩)] := by decide
    rw [hrec]
    norm_num [revenueSummary, mkRevenueSummary, sqlSum, reconRow,
      matchStatusOf, gclidStatusOf, timeDiffOf, sqlRound2]

/-- Witness for C4 at concrete inputs: a non-matched row is ignored, the
empty table gives the undefined summary, and a zero matched GA4 total
gives an undefined percentage. -/
theorem revenue_reconciliation_spec_witness :
    revenueSummary (reconRow none (some sfoSample) :: []) = revenueSummary [] ∧
    revenueSummary [] = ⟨none, none, none, none⟩ ∧
    (revenueSummary (reconciliation [gaRecZero] [sfRecZero])).diff_percentage =
      none :=
  ⟨revenue_reconciliation_spec.1 [] _ (by decide),
   revenue_reconciliation_spec.2.1 [] (by decide),
   revenue_reconciliation_spec.2.2.1 (reconciliation [gaRecZero] [sfRecZero])
     (by decide)⟩

/-!  Counting lemmas for the full outer join. -/

lemma bind_some {α β} (a : α) (f : α → Option β) : (some a).bind f = f a := rfl

lemma bind_none {α β} (f : α → Option β) : (none : Option α).bind f = none := rfl

lemma keyEq_none_left (x : Option String) : keyEq none x = false := rfl

lemma keyEq_none_right (x : Option String) : keyEq x none = false := by
  cases x <;> rfl

lemma keyEq_some_left (k : String) (x : Option String) :
    keyEq (some k) x = decide (x = some k) := by
  cases x with
  | none => rfl
  | some y =>
    show decide (k = y) = decide (some y = some k)
    rw [decide_eq_decide]
    exact ⟨fun h => by rw [h], fun h => (Option.some_inj.mp h).symm⟩

lemma keyEq_some_right (k : String) (x : Option String) :
    keyEq x (some k) = decide (x = some k) := by
  cases x with
  | none => rfl
  | some y =>
    show decide (y = k) = decide (some y = some k)
    rw [decide_eq_decide]
    exact ⟨fun h => by rw [h], fun h => Option.some_inj.mp h⟩

lemma reconRow_tid (g : Option GaB) (s : Option SfO) :
    (reconRow g s).transaction_id =
      (g.bind (·.transaction_id)).or (s.bind (·.transaction_id)) := rfl

lemma reconRow_status (g : Option GaB) (s : Option SfO) :
    (reconRow g s).match_status =
      matchStatusOf (g.bind (·.transaction_id)) (s.bind (·.transaction_id)) := rfl

lemma gaKeyCount_cons (g : GaB) (l : List GaB) (k : String) :
    gaKeyCount (g :: l) k =
      gaKeyCount l k + if g.transaction_id = some k then 1 else 0 := by
  simp [gaKeyCount, List.countP_cons]

lemma pairs_countP_key (g : GaB) (r : List SfO) (k : String) :
    ((r.filter fun s => keyEq g.transaction_id s.transaction_id).map
      fun s => reconRow (some g) (some s)).countP
        (fun row => row.transaction_id = some k) =
    if g.transaction_id = some k then sfKeyCount r k else 0 := by
  rw [List.countP_map, List.countP_filter]
  cases hg : g.transaction_id with
  | none =>
    simp [keyEq_none_left]
  | some t =>
    by_cases ht : t = k
    · subst ht
      rw [if_pos rfl]
      unfold sfKeyCount
      apply List.countP_congr
      intro s _
      simp [Function.comp, reconRow_tid, bind_some, hg, Option.or_some,
        keyEq_some_left]
    · rw [if_neg (by simp [ht])]
      apply List.countP_eq_zero.mpr
      intro s _
      simp [Function.comp, reconRow_tid, bind_some, hg, Option.or_some, ht,
        keyEq_some_left]

lemma leftOnly_countP_key (l : List GaB) (r : List SfO) (k : String) :
    (((l.filter fun g =>
        ¬ r.any fun s => keyEq g.transaction_id s.transaction_id).map
      fun g => reconRow (some g) none).countP
        fun row => row.transaction_id = some k) =
    if sfKeyCount r k = 0 then gaKeyCount l k else 0 := by
  rw [List.countP_map, List.countP_filter]
  by_cases hc : sfKeyCount r k = 0
  · rw [if_pos hc]
    unfold gaKeyCount
    apply List.countP_congr
    intro g _
    simp only [Function.comp, reconRow_tid, bind_some, bind_none,
      Option.or_none, Bool.and_eq_true, decide_eq_true_eq]
    constructor
    · exact fun h => h.1
    · intro h
      refine ⟨h, ?_⟩
      rw [List.any_eq_true]
      rintro ⟨s, hs, hks⟩
      rw [h, keyEq_some_left] at hks
      exact List.countP_eq_zero.mp hc s hs (by simpa using hks)
  · rw [if_neg hc]
    apply List.countP_eq_zero.mpr
    intro g _
    simp only [Function.comp, reconRow_tid, bind_some, bind_none,
      Option.or_none, Bool.and_eq_true, decide_eq_true_eq, not_and]
    intro hgk hnany
    obtain ⟨s, hs, hsk⟩ := List.countP_pos_iff.mp (Nat.pos_of_ne_zero hc)
    rw [List.any_eq_true] at hnany
    exact hnany ⟨s, hs, by
      rw [hgk, keyEq_some_left]
      simpa using hsk⟩

lemma rightOnly_countP_key (l : List GaB) (r : List SfO) (k : String) :
    (((r.filter fun s =>
        ¬ l.any fun g => keyEq g.transaction_id s.transaction_id).map
      fun s => reconRow none (some s)).countP
        fun row => row.transaction_id = some k) =
    if gaKeyCount l k = 0 then sfKeyCount r k else 0 := by
  rw [List.countP_map, List.countP_filter]
  by_cases hc : gaKeyCount l k = 0
  · rw [if_pos hc]
    unfold sfKeyCount
    apply List.countP_congr
    intro s _
    simp only [Function.comp, reconRow_tid, bind_some, bind_none,
      Option.none_or, Bool.and_eq_true, decide_eq_true_eq]
    constructor
    · exact fun h => h.1
    · intro h
      refine ⟨h, ?_⟩
      rw [List.any_eq_true]
      rintro ⟨g, hg, hks⟩
      rw [h, keyEq_some_right] at hks
      exact List.countP_eq_zero.mp hc g hg (by simpa using hks)
  · rw [if_neg hc]
    apply List.countP_eq_zero.mpr
    intro s _
    simp only [Function.comp, reconRow_tid, bind_some, bind_none,
      Option.none_or, Bool.and_eq_true, decide_eq_true_eq, not_and]
    intro hsk hnany
    obtain ⟨g, hg, hgk⟩ := List.countP_pos_iff.mp (Nat.pos_of_ne_zero hc)
    rw [List.any_eq_true] at hnany
    exact hnany ⟨g, hg, by
      rw [hsk, keyEq_some_right]
      simpa using hgk⟩

lemma keyRowCount_reconcile (l : List GaB) (r : List SfO) (k : String) :
    keyRowCount (reconcile l r) k =
      gaKeyCount l k * sfKeyCount r k
      + (if sfKeyCount r k = 0 then gaKeyCount l k else 0)
      + (if gaKeyCount l k = 0 then sfKeyCount r k else 0) := by
  unfold keyRowCount reconcile fullOuterJoin
  rw [List.map_append, List.map_append, List.countP_append, List.countP_append,
    List.map_flatMap, List.map_map, List.map_map]
  congr 1
  · congr 1
    · -- the matched pairs
      induction l with
      | nil => simp [gaKeyCount]
      | cons g l ih =>
        rw [List.flatMap_cons, List.countP_append, ih, List.map_map]
        rw [show ((fun p => reconRow p.1 p.2) ∘ fun s => ((some g : Option GaB),
            (some s : Option SfO))) = fun s => reconRow (some g) (some s)
          from rfl]
        rw [pairs_countP_key g r k, gaKeyCount_cons]
        by_cases hg : g.transaction_id = some k
        · rw [if_pos hg, if_pos hg, Nat.add_mul, Nat.one_mul]
          omega
        · rw [if_neg hg, if_neg hg]
          simp
    · -- the unmatched left rows
      have hp := leftOnly_countP_key l r k
      rw [show ((fun p => reconRow p.1 p.2) ∘ fun g => ((some g : Option GaB),
          (none : Option SfO))) = fun g => reconRow (some g) none from rfl]
      exact hp
  · -- the unmatched right rows
    have hp := rightOnly_countP_key l r k
    rw [show ((fun p => reconRow p.1 p.2) ∘ fun s => ((none : Option GaB),
        (some s : Option SfO))) = fun s => reconRow none (some s) from rfl]
    exact hp

/-- C1 counterexample: with one GA4 record and two Salesforce records all
carrying the key `A`, the full outer join emits two rows with key `A` —
it fans out over duplicates instead of picking a single first record, so
a key can be duplicated in the output. -/
theorem one_row_per_key_counterexample :
    keyRowCount (reconciliation [gaRecPlain] [sfRecPlain, sfRecADup]) "A" = 2 ∧
    (2 : ℕ) ≠ 1 := by
  exact ⟨by decide, by decide⟩

/-- C1 amended: when each side of the join input holds at most one record
per key, the reconciliation emits exactly one row per key appearing on
either side and none for absent keys; under duplicate keys the join
instead emits one row per matching pair of records (no deterministic
first-by-timestamp pick exists in the code). -/
theorem unique_keys_one_row_per_key :
    ∀ (l : List GaB) (r : List SfO),
      (∀ k, gaKeyCount l k ≤ 1) → (∀ k, sfKeyCount r k ≤ 1) →
      ∀ k, keyRowCount (reconcile l r) k =
        if gaKeyCount l k = 0 ∧ sfKeyCount r k = 0 then 0 else 1 := by
  intro l r hl hr k
  rw [keyRowCount_reconcile]
  rcases Nat.le_one_iff_eq_zero_or_eq_one.mp (hl k) with h1 | h1 <;>
    rcases Nat.le_one_iff_eq_zero_or_eq_one.mp (hr k) with h2 | h2 <;>
      simp [h1, h2]

/-- Witness for C1's amended theorem at singleton inputs with key `A`. -/
theorem unique_keys_one_row_per_key_witness :
    keyRowCount (reconcile [gabPlain] [sfoPlain]) "A" =
      if gaKeyCount [gabPlain] "A" = 0 ∧ sfKeyCount [sfoPlain] "A" = 0
        then 0 else 1 :=
  unique_keys_one_row_per_key [gabPlain] [sfoPlain]
    (fun k => by
      unfold gaKeyCount
      rw [List.countP_cons]
      simp only [List.countP_nil]
      split <;> omega)
    (fun k => by
      unfold sfKeyCount
      rw [List.countP_cons]
      simp only [List.countP_nil]
      split <;> omega)
    "A"

/-!  Status-count lemmas for the full outer join. -/

lemma keyEq_true_iff (a b : Option String) :
    keyEq a b = true ↔ ∃ x, a = some x ∧ b = some x := by
  cases a with
  | none => simp [keyEq_none_left]
  | some x =>
    rw [keyEq_some_left]
    constructor
    · intro h
      exact ⟨x, rfl, of_decide_eq_true h⟩
    · rintro ⟨y, hxy, hb⟩
      cases Option.some_inj.mp hxy
      exact decide_eq_true hb

lemma matchStatusOf_both (a b : String) :
    matchStatusOf (some a) (some b) = some .matched := by
  simp [matchStatusOf]

lemma matchStatusOf_left_ne (a : Option String) :
    matchStatusOf a none ≠ some .matched := by
  cases a <;> simp [matchStatusOf]

lemma matchStatusOf_right_ne (b : Option String) :
    matchStatusOf none b ≠ some .matched := by
  cases b <;> simp [matchStatusOf]

lemma matchStatusOf_ga4_iff (a : Option String) :
    matchStatusOf a none = some .ga4_only ↔ a.isSome = true := by
  cases a <;> simp [matchStatusOf]

lemma matchStatusOf_none_ne_ga4 (b : Option String) :
    matchStatusOf none b ≠ some .ga4_only := by
  cases b <;> simp [matchStatusOf]

lemma matchStatusOf_sf_iff (b : Option String) :
    matchStatusOf none b = some .sf_only ↔ b.isSome = true := by
  cases b <;> simp [matchStatusOf]

lemma matchStatusOf_left_ne_sf (a : Option String) :
    matchStatusOf a none ≠ some .sf_only := by
  cases a <;> simp [matchStatusOf]

lemma pairs_countP_matched (g : GaB) (r : List SfO) :
    ((r.filter fun s => keyEq g.transaction_id s.transaction_id).map
      fun s => reconRow (some g) (some s)).countP
        (fun row => row.match_status = some .matched) =
    r.countP fun s => keyEq g.transaction_id s.transaction_id := by
  rw [List.countP_map, List.countP_filter]
  apply List.countP_congr
  intro s _
  cases hk : keyEq g.transaction_id s.transaction_id
  · simp
  · obtain ⟨x, hg, hs⟩ := (keyEq_true_iff _ _).mp hk
    simp [Function.comp, reconRow_status, bind_some, hg, hs,
      matchStatusOf_both]

lemma statusCount_matched (l : List GaB) (r : List SfO) :
    statusCount (reconcile l r) .matched =
      (l.map fun g =>
        r.countP fun s => keyEq g.transaction_id s.transaction_id).sum := by
  unfold statusCount reconcile fullOuterJoin
  rw [List.map_append, List.map_append, List.countP_append, List.countP_append,
    List.map_flatMap, List.map_map, List.map_map]
  have hlo : (((l.filter fun g =>
      ¬ r.any fun s => keyEq g.transaction_id s.transaction_id).map
        ((fun p => reconRow p.1 p.2) ∘ fun g =>
          ((some g : Option GaB), (none : Option SfO)))).countP
      fun row => row.match_status = some .matched) = 0 := by
    apply List.countP_eq_zero.mpr
    intro row hrow
    obtain ⟨g, _, rfl⟩ := List.mem_map.mp hrow
    simp [Function.comp, reconRow_status, bind_some, bind_none,
      matchStatusOf_left_ne]
  have hro : (((r.filter fun s =>
      ¬ l.any fun g => keyEq g.transaction_id s.transaction_id).map
        ((fun p => reconRow p.1 p.2) ∘ fun s =>
          ((none : Option GaB), (some s : Option SfO)))).countP
      fun row => row.match_status = some .matched) = 0 := by
    apply List.countP_eq_zero.mpr
    intro row hrow
    obtain ⟨s, _, rfl⟩ := List.mem_map.mp hrow
    simp [Function.comp, reconRow_status, bind_some, bind_none,
      matchStatusOf_right_ne]
  rw [hlo, hro]
  simp only [Nat.add_zero]
  clear hlo hro
  induction l with
  | nil => simp
  | cons g l ih =>
    rw [List.flatMap_cons, List.countP_append, ih, List.map_map]
    rw [show ((fun p => reconRow p.1 p.2) ∘ fun s => ((some g : Option GaB),
        (some s : Option SfO))) = fun s => reconRow (some g) (some s)
      from rfl]
    rw [pairs_countP_matched g r, List.map_cons, List.sum_cons]

lemma statusCount_ga4_only (l : List GaB) (r : List SfO) :
    statusCount (reconcile l r) .ga4_only =
      l.countP fun g => g.transaction_id.isSome &&
        !(r.any fun s => keyEq g.transaction_id s.transaction_id) := by
  unfold statusCount reconcile fullOuterJoin
  rw [List.map_append, List.map_append, List.countP_append, List.countP_append,
    List.map_flatMap, List.map_map, List.map_map]
  have hpairs : ((l.flatMap fun g =>
      ((r.filter fun s => keyEq g.transaction_id s.transaction_id).map
        fun s => ((some g : Option GaB), (some s : Option SfO))).map
          fun p => reconRow p.1 p.2).countP
      fun row => row.match_status = some .ga4_only) = 0 := by
    apply List.countP_eq_zero.mpr
    intro row hrow
    obtain ⟨g, _, hrow⟩ := List.mem_flatMap.mp hrow
    obtain ⟨p, hp, rfl⟩ := List.mem_map.mp hrow
    obtain ⟨s, hs, rfl⟩ := List.mem_map.mp hp
    obtain ⟨_, hk⟩ := List.mem_filter.mp hs
    obtain ⟨x, hgx, hsx⟩ := (keyEq_true_iff _ _).mp hk
    simp [reconRow_status, bind_some, hgx, hsx, matchStatusOf_both]
  have hro : (((r.filter fun s =>
      ¬ l.any fun g => keyEq g.transaction_id s.transaction_id).map
        ((fun p => reconRow p.1 p.2) ∘ fun s =>
          ((none : Option GaB), (some s : Option SfO)))).countP
      fun row => row.match_status = some .ga4_only) = 0 := by
    apply List.countP_eq_zero.mpr
    intro row hrow
    obtain ⟨s, _, rfl⟩ := List.mem_map.mp hrow
    simp [Function.comp, reconRow_status, bind_some, bind_none,
      matchStatusOf_none_ne_ga4]
  rw [hpairs, hro]
  simp only [Nat.zero_add, Nat.add_zero]
  rw [show ((fun p => reconRow p.1 p.2) ∘ fun g => ((some g : Option GaB),
      (none : Option SfO))) = fun g => reconRow (some g) none from rfl]
  rw [List.countP_map, List.countP_filter]
  apply List.countP_congr
  intro g _
  simp [Function.comp, reconRow_status, bind_some, bind_none,
    matchStatusOf_ga4_iff, Bool.not_eq_true']

lemma statusCount_sf_only (l : List GaB) (r : List SfO) :
    statusCount (reconcile l r) .sf_only =
      r.countP fun s => s.transaction_id.isSome &&
        !(l.any fun g => keyEq g.transaction_id s.transaction_id) := by
  unfold statusCount reconcile fullOuterJoin
  rw [List.map_append, List.map_append, List.countP_append, List.countP_append,
    List.map_flatMap, List.map_map, List.map_map]
  have hpairs : ((l.flatMap fun g =>
      ((r.filter fun s => keyEq g.transaction_id s.transaction_id).map
        fun s => ((some g : Option GaB), (some s : Option SfO))).map
          fun p => reconRow p.1 p.2).countP
      fun row => row.match_status = some .sf_only) = 0 := by
    apply List.countP_eq_zero.mpr
    intro row hrow
    obtain ⟨g, _, hrow⟩ := List.mem_flatMap.mp hrow
    obtain ⟨p, hp, rfl⟩ := List.mem_map.mp hrow
    obtain ⟨s, hs, rfl⟩ := List.mem_map.mp hp
    obtain ⟨_, hk⟩ := List.mem_filter.mp hs
    obtain ⟨x, hgx, hsx⟩ := (keyEq_true_iff _ _).mp hk
    simp [reconRow_status, bind_some, hgx, hsx, matchStatusOf_both]
  have hlo : (((l.filter fun g =>
      ¬ r.any fun s => keyEq g.transaction_id s.transaction_id).map
        ((fun p => reconRow p.1 p.2) ∘ fun g =>
          ((some g : Option GaB), (none : Option SfO)))).countP
      fun row => row.match_status = some .sf_only) = 0 := by
    apply List.countP_eq_zero.mpr
    intro row hrow
    obtain ⟨g, _, rfl⟩ := List.mem_map.mp hrow
    simp [Function.comp, reconRow_status, bind_some, bind_none,
      matchStatusOf_left_ne_sf]
  rw [hpairs, hlo]
  simp only [Nat.zero_add]
  rw [show ((fun p => reconRow p.1 p.2) ∘ fun s => ((none : Option GaB),
      (some s : Option SfO))) = fun s => reconRow none (some s) from rfl]
  rw [List.countP_map, List.countP_filter]
  apply List.countP_congr
  intro s _
  simp [Function.comp, reconRow_status, bind_some, bind_none,
    matchStatusOf_sf_iff, Bool.not_eq_true']

lemma sum_map_add {α} (f h : α → ℕ) (l : List α) :
    (l.map fun a => f a + h a).sum = (l.map f).sum + (l.map h).sum := by
  induction l with
  | nil => rfl
  | cons a l ih =>
    simp only [List.map_cons, List.sum_cons, ih]
    omega

lemma sum_map_ite_count {α} (p : α → Bool) (l : List α) :
    (l.map fun a => if p a then 1 else 0).sum = l.countP p := by
  induction l with
  | nil => rfl
  | cons a l ih =>
    rw [List.map_cons, List.sum_cons, ih, List.countP_cons]
    omega

lemma sum_map_zero {α} (l : List α) : (l.map fun _ => (0 : ℕ)).sum = 0 := by
  induction l with
  | nil => rfl
  | cons a l ih => simp [ih]

lemma countP_sum_comm {α β} (p : α → β → Bool) :
    ∀ (l : List α) (r : List β),
      (l.map fun a => r.countP (p a)).sum =
        (r.map fun b => l.countP fun a => p a b).sum := by
  intro l
  induction l with
  | nil =>
    intro r
    simp only [List.map_nil, List.sum_nil, List.countP_nil]
    exact (sum_map_zero r).symm
  | cons a l ih =>
    intro r
    rw [List.map_cons, List.sum_cons, ih]
    have hmap : (r.map fun b => List.countP (fun x => p x b) (a :: l)) =
        r.map fun b => (l.countP fun x => p x b) + if p a b then 1 else 0 := by
      congr 1
      funext b
      rw [List.countP_cons]
    rw [hmap, sum_map_add, sum_map_ite_count]
    omega

lemma left_conservation_aux (r : List SfO) (HR : ∀ k, sfKeyCount r k ≤ 1) :
    ∀ l : List GaB, (∀ g ∈ l, g.transaction_id.isSome = true) →
      (l.map fun g =>
          r.countP fun s => keyEq g.transaction_id s.transaction_id).sum
        + l.countP (fun g => g.transaction_id.isSome &&
            !(r.any fun s => keyEq g.transaction_id s.transaction_id))
        = l.length := by
  intro l
  induction l with
  | nil => intro _; rfl
  | cons g l ih =>
    intro HL
    rw [List.map_cons, List.sum_cons, List.countP_cons, List.length_cons]
    have hrec := ih fun g' hg' => HL g' (List.mem_cons_of_mem _ hg')
    have hg := HL g (List.mem_cons_self _ _)
    obtain ⟨t, ht⟩ := Option.isSome_iff_exists.mp hg
    have hm : (r.countP fun s => keyEq g.transaction_id s.transaction_id) =
        sfKeyCount r t := by
      unfold sfKeyCount
      apply List.countP_congr
      intro s _
      rw [ht, keyEq_some_left]
    by_cases hz :
        (r.countP fun s => keyEq g.transaction_id s.transaction_id) = 0
    · have hany :
          (r.any fun s => keyEq g.transaction_id s.transaction_id) = false :=
        List.any_eq_false.mpr (List.countP_eq_zero.mp hz)
      have hcond : (g.transaction_id.isSome &&
          !(r.any fun s => keyEq g.transaction_id s.transaction_id)) = true := by
        rw [hg, hany]
        rfl
      rw [hcond, if_pos rfl]
      omega
    · have hone :
          (r.countP fun s => keyEq g.transaction_id s.transaction_id) = 1 := by
        have h1 := HR t
        have h2 := Nat.pos_of_ne_zero hz
        omega
      have hany :
          (r.any fun s => keyEq g.transaction_id s.transaction_id) = true :=
        List.any_eq_true.mpr (List.countP_pos_iff.mp (Nat.pos_of_ne_zero hz))
      have hcond : (g.transaction_id.isSome &&
          !(r.any fun s => keyEq g.transaction_id s.transaction_id)) = false := by
        rw [hany]
        simp
      rw [hcond, if_neg Bool.false_ne_true]
      omega

lemma right_conservation_aux (l : List GaB) (HL : ∀ k, gaKeyCount l k ≤ 1) :
    ∀ r : List SfO, (∀ s ∈ r, s.transaction_id.isSome = true) →
      (r.map fun s =>
          l.countP fun g => keyEq g.transaction_id s.transaction_id).sum
        + r.countP (fun s => s.transaction_id.isSome &&
            !(l.any fun g => keyEq g.transaction_id s.transaction_id))
        = r.length := by
  intro r
  induction r with
  | nil => intro _; rfl
  | cons s r ih =>
    intro HR
    rw [List.map_cons, List.sum_cons, List.countP_cons, List.length_cons]
    have hrec := ih fun s' hs' => HR s' (List.mem_cons_of_mem _ hs')
    have hs := HR s (List.mem_cons_self _ _)
    obtain ⟨t, ht⟩ := Option.isSome_iff_exists.mp hs
    have hm : (l.countP fun g => keyEq g.transaction_id s.transaction_id) =
        gaKeyCount l t := by
      unfold gaKeyCount
      apply List.countP_congr
      intro g _
      rw [ht, keyEq_some_right]
    by_cases hz :
        (l.countP fun g => keyEq g.transaction_id s.transaction_id) = 0
    · have hany :
          (l.any fun g => keyEq g.transaction_id s.transaction_id) = false :=
        List.any_eq_false.mpr (List.countP_eq_zero.mp hz)
      have hcond : (s.transaction_id.isSome &&
          !(l.any fun g => keyEq g.transaction_id s.transaction_id)) = true := by
        rw [hs, hany]
        rfl
      rw [hcond, if_pos rfl]
      omega
    · have hone :
          (l.countP fun g => keyEq g.transaction_id s.transaction_id) = 1 := by
        have h1 := HL t
        have h2 := Nat.pos_of_ne_zero hz
        omega
      have hany :
          (l.any fun g => keyEq g.transaction_id s.transaction_id) = true :=
        List.any_eq_true.mpr (List.countP_pos_iff.mp (Nat.pos_of_ne_zero hz))
      have hcond : (s.transaction_id.isSome &&
          !(l.any fun g => keyEq g.transaction_id s.transaction_id)) = false := by
        rw [hany]
        simp
      rw [hcond, if_neg Bool.false_ne_true]
      omega

/-- C6 counterexample: a duplicated key on the Salesforce side makes the
join fan out, so `count(MATCHED) + count(GA4_ONLY) = 2` exceeds the
left input size 1 — the claimed `≤ |left|` bound fails under key
collisions. -/
theorem conservation_counterexample :
    statusCount (reconciliation [gaRecPlain] [sfRecPlain, sfRecADup])
        .matched
      + statusCount (reconciliation [gaRecPlain] [sfRecPlain, sfRecADup])
        .ga4_only = 2 ∧
    (ga4Bookings [gaRecPlain]).length = 1 ∧ ¬ (2 ≤ 1) := by
  exact ⟨by decide, by decide, by decide⟩

/-- C6 amended: when keys are unique within each side and non-null on
both sides of the join input, `count(MATCHED) + count(GA4_ONLY) = |left|`
and `count(MATCHED) + count(SF_ONLY) = |right|` (hence the claimed `≤`
bounds with equality); without the uniqueness assumption the bounds can
fail, as the counterexample shows. -/
theorem conservation_under_unique_keys :
    ∀ (l : List GaB) (r : List SfO),
      (∀ g ∈ l, g.transaction_id.isSome = true) →
      (∀ s ∈ r, s.transaction_id.isSome = true) →
      (∀ k, gaKeyCount l k ≤ 1) → (∀ k, sfKeyCount r k ≤ 1) →
      statusCount (reconcile l r) .matched
          + statusCount (reconcile l r) .ga4_only = l.length ∧
      statusCount (reconcile l r) .matched
          + statusCount (reconcile l r) .sf_only = r.length := by
  intro l r HLs HRs HLu HRu
  constructor
  · rw [statusCount_matched, statusCount_ga4_only]
    exact left_conservation_aux r HRu l HLs
  · rw [statusCount_matched, statusCount_sf_only,
      countP_sum_comm
        (fun (g : GaB) (s : SfO) => keyEq g.transaction_id s.transaction_id)
        l r]
    exact right_conservation_aux l HLu r HRs

/-- Witness for C6's amended theorem at singleton inputs with key `A`. -/
theorem conservation_under_unique_keys_witness :
    statusCount (reconcile [gabPlain] [sfoPlain]) .matched
        + statusCount (reconcile [gabPlain] [sfoPlain]) .ga4_only = 1 ∧
    statusCount (reconcile [gabPlain] [sfoPlain]) .matched
        + statusCount (reconcile [gabPlain] [sfoPlain]) .sf_only = 1 :=
  conservation_under_unique_keys [gabPlain] [sfoPlain]
    (fun g hg => by rw [List.mem_singleton.mp hg]; decide)
    (fun s hs => by rw [List.mem_singleton.mp hs]; decide)
    (fun k => by
      unfold gaKeyCount
      rw [List.countP_cons]
      simp only [List.countP_nil]
      split <;> omega)
    (fun k => by
      unfold sfKeyCount
      rw [List.countP_cons]
      simp only [List.countP_nil]
      split <;> omega)

lemma dailyTrend_dates (rows : List ReconRow) :
    (dailyTrend rows).map (·.date) =
      (((rows.map (·.date)).dedup).insertionSort dateDescLE).take 10 := by
  unfold dailyTrend
  rw [List.map_map]
  have h : ((fun e : TrendEntry => e.date) ∘ trendEntry rows) =
      fun d => d := funext fun d => rfl
  rw [h, List.map_id']

/-- C8: the daily trend emits at most 10 entries (exactly 10 when at
least 10 distinct dates occur), one per distinct date, ordered by date
descending; each entry reports that date's row count, matched count and
rounded match-rate percentage; and every date left out is no more recent
than every date reported — the output is the most recent 10 days
(the `LIMIT 10` default of the report). -/
theorem daily_trend_spec :
    ∀ rows : List ReconRow,
      (dailyTrend rows).length ≤ 10 ∧
      (10 ≤ ((rows.map (·.date)).dedup).length →
        (dailyTrend rows).length = 10) ∧
      ((dailyTrend rows).map (·.date)).Sorted dateDescLE ∧
      ((dailyTrend rows).map (·.date)).Nodup ∧
      (∀ e ∈ dailyTrend rows,
        (∃ rr ∈ rows, rr.date = e.date) ∧
        e.total_bookings = rows.countP (fun rr => rr.date = e.date) ∧
        e.matched = rows.countP (fun rr => rr.date = e.date ∧
          rr.match_status = some .matched) ∧
        e.match_rate_pct =
          sqlRound2 ((e.matched : ℚ) * 100 / (e.total_bookings : ℚ))) ∧
      (∀ d, (∃ rr ∈ rows, rr.date = d) →
        d ∉ (dailyTrend rows).map (·.date) →
        ∀ e ∈ dailyTrend rows, dateDescLE e.date d) := by
  intro rows
  have hperm : (((rows.map (·.date)).dedup).insertionSort dateDescLE).Perm
      ((rows.map (·.date)).dedup) := List.perm_insertionSort _ _
  have hsort : (((rows.map (·.date)).dedup).insertionSort dateDescLE).Sorted
      dateDescLE := List.sorted_insertionSort _ _
  have hmapdates := dailyTrend_dates rows
  have hlen : (dailyTrend rows).length =
      ((((rows.map (·.date)).dedup).insertionSort dateDescLE).take 10).length := by
    rw [← hmapdates, List.length_map]
  refine ⟨?_, ?_, ?_, ?_, ?_, ?_⟩
  · rw [hlen]
    exact List.length_take_le _ _
  · intro h10
    rw [hlen, List.length_take, hperm.length_eq]
    omega
  · rw [hmapdates]
    exact hsort.sublist (List.take_sublist _ _)
  · rw [hmapdates]
    exact (hperm.symm.nodup (List.nodup_dedup _)).sublist
      (List.take_sublist _ _)
  · intro e he
    unfold dailyTrend at he
    obtain ⟨d, hd, rfl⟩ := List.mem_map.mp he
    refine ⟨?_, rfl, rfl, rfl⟩
    have hds : d ∈ (rows.map (·.date)).dedup :=
      hperm.mem_iff.mp (List.mem_of_mem_take hd)
    obtain ⟨rr, hrr, hrd⟩ := List.mem_map.mp (List.mem_dedup.mp hds)
    exact ⟨rr, hrr, hrd⟩
  · intro d hd hnot e he
    unfold dailyTrend at he
    obtain ⟨d', hd', rfl⟩ := List.mem_map.mp he
    show dateDescLE d' d
    have hds : d ∈ ((rows.map (·.date)).dedup).insertionSort dateDescLE := by
      rw [hperm.mem_iff, List.mem_dedup]
      obtain ⟨rr, hrr, hrd⟩ := hd
      exact List.mem_map.mpr ⟨rr, hrr, hrd⟩
    have hdnot : d ∉
        (((rows.map (·.date)).dedup).insertionSort dateDescLE).take 10 := by
      rw [← hmapdates]
      exact hnot
    have hddrop : d ∈
        (((rows.map (·.date)).dedup).insertionSort dateDescLE).drop 10 := by
      have hm := hds
      rw [← List.take_append_drop 10
        (((rows.map (·.date)).dedup).insertionSort dateDescLE)] at hm
      exact (List.mem_append.mp hm).resolve_left hdnot
    have hp := hsort
    rw [← List.take_append_drop 10
      (((rows.map (·.date)).dedup).insertionSort dateDescLE)] at hp
    exact (List.pairwise_append.mp hp).2.2 d' hd' d hddrop

/-- Witness for C8 at twelve rows with twelve distinct dates: the trend
caps at 10 entries and the excluded date 0 is older than the reported
date 11. -/
theorem daily_trend_spec_witness :
    (dailyTrend trendRows12).length = 10 ∧
    dateDescLE (trendEntry trendRows12 (some 11)).date (some 0) :=
  ⟨(daily_trend_spec trendRows12).2.1 (by decide),
   (daily_trend_spec trendRows12).2.2.2.2.2 (some 0)
     ⟨reconRow (some (gabDay 0)) none, by decide, by decide⟩
     (by
       rw [dailyTrend_dates]
       decide)
     (trendEntry trendRows12 (some 11))
     (List.mem_map.mpr ⟨some 11, by decide, rfl⟩)⟩
